import Mathlib

/-!
Verification of the trio-serial repository: a shallow embedding of the
portable stream facade (abstract.py), the POSIX backend (posix.py), the
Linux constants (linux.py) and the Windows backend (windows.py), with
theorems settling the frozen claims about them.

Conventions of the embedding:
* Python exceptions become constructors of `Err`; fallible code returns
  `Except Err _`.
* `async` suspension points are irrelevant to the claims; calls into trio
  (`wait_writable`, `wait_readable`, `checkpoint`, ioctl results, the
  number of bytes a single `os.write` accepts) are supplied as explicit
  oracle arguments.
* Machine integers are `Nat`; the C bit operations `|=` and `&= ~m` are
  `Nat.lor` and `clearBits`.
-/

namespace TrioSerial

/-- Parity enumeration, from `abstract.py` (`Parity`). -/
inductive Parity where
  | none
  | even
  | odd
  | mark
  | space
deriving DecidableEq, Repr

/-- Stop-bit enumeration, from `abstract.py` (`StopBits`). -/
inductive StopBits where
  | one
  | one_point_five
  | two
deriving DecidableEq, Repr

/-- The configuration fields stored by `AbstractSerialStream.__init__`. -/
structure Config where
  port : String
  exclusive : Bool
  baudrate : Nat
  bytesize : Nat
  parity : Parity
  stopbits : StopBits
  xonxoff : Bool
  rtscts : Bool
deriving DecidableEq, Repr

/-- The error taxonomy of the code, mapped from the Python exceptions:
`closedResource` is trio's `ClosedResourceError`; `conflict` is the
`BusyResourceError` raised by trio's `ConflictDetector` (the spec's
`ConflictError`); `alreadyOpen` is the `Exception("Already opened")` of
`PosixSerialStream.aopen` (the spec's `AlreadyOpenError`); `configuration`
covers the `ValueError`s and the `NotImplementedError` raised during
`_reconfigure_port` (the spec's `ConfigurationError`); `ioFailure` is an
`IOError`/`OSError` from an OS call. -/
inductive Err where
  | closedResource
  | conflict
  | alreadyOpen
  | configuration
  | ioFailure
deriving DecidableEq, Repr

/-- The pair of `ConflictDetector`s created in `AbstractSerialStream.__init__`:
each holds one "in flight" flag; entering a held detector raises. -/
structure Guards where
  sendBusy : Bool
  recvBusy : Bool
deriving DecidableEq, Repr

/-- The mutable state of a `PosixSerialStream`: the file descriptor
(`_fd`, `Option.none` iff closed) and the `_hangup_on_close` flag.
The configuration fields never change after `__init__` and are passed
separately as a `Config`. -/
structure PosixState where
  fd : Option Nat
  hangupOnClose : Bool
deriving DecidableEq, Repr

/-- The `fd` property: raise `ClosedResourceError` if `_fd is None`. -/
def fdGet (st : PosixState) : Except Err Nat :=
  match st.fd with
  | Option.none => .error .closedResource
  | some fd => .ok fd

/-- Observable events of one `send_all` call: the trio checkpoint taken for
empty data, each `_wait_writable` call, and each `_send` call together with
the byte slice passed to it. -/
inductive SendEvent where
  | checkpoint
  | waitWritable
  | send (slice : List Nat)
deriving DecidableEq, Repr

/-- The `while total_sent < len(data)` loop of `AbstractSerialStream.send_all`,
run on the POSIX backend.  `oracle` supplies, in order, the value each
`_send` (a single `os.write`) returns; `t` is `total_sent`.  Each iteration
first calls `_wait_writable` (which reads `self.fd` and raises
`ClosedResourceError` when the port is closed), then `_send(data[total_sent:])`,
then advances `total_sent` by the returned count.  When the oracle is
exhausted while the loop still needs another write, the model returns
`Option.none` ("behaviour not determined by this oracle"). -/
def posixSendLoop (st : PosixState) (data : List Nat) :
    List Nat → Nat → Except Err (Option (List SendEvent))
  | [], t =>
    if t < data.length then
      match st.fd with
      | Option.none => .error .closedResource
      | some _ => .ok Option.none
    else .ok (some [])
  | s :: rest, t =>
    if t < data.length then
      match st.fd with
      | Option.none => .error .closedResource
      | some _ =>
        match posixSendLoop st data rest (t + s) with
        | .error e => .error e
        | .ok Option.none => .ok Option.none
        | .ok (some evs) =>
            .ok (some (SendEvent.waitWritable :: SendEvent.send (data.drop t) :: evs))
    else .ok (some [])

/-- `AbstractSerialStream.send_all` on the POSIX backend: enter the send
`ConflictDetector` (raising `BusyResourceError` when an operation is already
in flight), checkpoint once if `data` is empty, otherwise run the write loop. -/
def send_all (st : PosixState) (g : Guards) (data oracle : List Nat) :
    Except Err (Option (List SendEvent)) :=
  if g.sendBusy then .error .conflict
  else if data.isEmpty then .ok (some [SendEvent.checkpoint])
  else posixSendLoop st data oracle 0

/-- `AbstractSerialStream.wait_send_all_might_not_block` on the POSIX
backend: enter the send `ConflictDetector`, then `_wait_writable`, which
reads `self.fd`. -/
def wait_send_all_might_not_block (st : PosixState) (g : Guards) : Except Err Unit :=
  if g.sendBusy then .error .conflict
  else
    match st.fd with
    | Option.none => .error .closedResource
    | some _ => .ok ()

/-- Python's `max_bytes or 4096`: `None` and `0` are both falsy, so every
falsy value falls back to the default. -/
def pyOr (maxBytes : Option Nat) (d : Nat) : Nat :=
  match maxBytes with
  | Option.none => d
  | some n => if n = 0 then d else n

/-- `PosixSerialStream._recv`: `wait_readable(self.fd)` (raising
`ClosedResourceError` when closed), then a single `os.read(self.fd,
max_bytes or 4096)`.  `osRead` is the oracle giving the bytes the OS read
call returns for a requested size. -/
def recv (st : PosixState) (osRead : Nat → List Nat) (maxBytes : Option Nat) :
    Except Err (List Nat) :=
  match st.fd with
  | Option.none => .error .closedResource
  | some _ => .ok (osRead (pyOr maxBytes 4096))

/-- `AbstractSerialStream.receive_some` on the POSIX backend: enter the
receive `ConflictDetector`, then a single `_recv` call. -/
def receive_some (st : PosixState) (g : Guards) (osRead : Nat → List Nat)
    (maxBytes : Option Nat) : Except Err (List Nat) :=
  if g.recvBusy then .error .conflict
  else recv st osRead maxBytes

/-- The event sequence described by the spec for a non-empty `send_all`:
"loops: wait-writable, then adapter send of the remaining slice, advancing
an offset by the number of bytes actually written, until the offset reaches
the end".  Written from the spec's words, to be compared with the code's
`posixSendLoop`. -/
def specSendCycle (data : List Nat) : List Nat → Nat → List SendEvent
  | [], _ => []
  | s :: rest, t =>
    if t < data.length then
      SendEvent.waitWritable :: SendEvent.send (data.drop t) :: specSendCycle data rest (t + s)
    else []

/-- One termios attribute list `[iflag, oflag, cflag, lflag, ispeed, ospeed, cc]`
as returned by `termios.tcgetattr` and passed to `termios.tcsetattr`. -/
structure Attr where
  iflag : Nat
  oflag : Nat
  cflag : Nat
  lflag : Nat
  ispeed : Nat
  ospeed : Nat
  cc : List Nat
deriving DecidableEq, Repr

/-- The C idiom `x &= ~m` on unbounded naturals: since `x &&& m` is a
bitwise sub-mask of `x`, subtracting it clears exactly the bits of `m`. -/
def clearBits (x m : Nat) : Nat := x - (x &&& m)

/-- `x &= ~m` for an optionally present constant (the `hasattr(termios, ...)`
pattern in the source): clear the bits when the constant exists, keep `x`
otherwise. -/
def clearOpt (x : Nat) (m : Option Nat) : Nat :=
  match m with
  | Option.none => x
  | some v => clearBits x v

/-- `BAUDRATE_CONSTANTS[rate]` dictionary lookup (`KeyError` as `Option.none`). -/
def lookupRate : List (Nat × Nat) → Nat → Option Nat
  | [], _ => Option.none
  | (k, v) :: rest, r => if k = r then some v else lookupRate rest r

/-- Everything `_reconfigure_port` reads from the `termios` module and from
the class attributes of the concrete stream class.  `Option.none` in an
`Option Nat` field models an absent attribute (`hasattr` false /
`AttributeError`).  `termiosB r` is `getattr(termios, f"B{r}")`; `CS n` is
`getattr(termios, f"CS{n}")`; `hasSetSpecialBaudrate` tells whether the
subclass overrides `_set_special_baudrate` (the base class raises
`NotImplementedError`). -/
structure Platform where
  CLOCAL : Nat
  CREAD : Nat
  ICANON : Nat
  ECHO : Nat
  ECHOE : Nat
  ECHOK : Nat
  ECHONL : Nat
  ISIG : Nat
  IEXTEN : Nat
  ECHOCTL : Option Nat
  ECHOKE : Option Nat
  OPOST : Nat
  ONLCR : Nat
  OCRNL : Nat
  INLCR : Nat
  IGNCR : Nat
  ICRNL : Nat
  IGNBRK : Nat
  IUCLC : Option Nat
  PARMRK : Option Nat
  termiosB : Nat → Option Nat
  B38400 : Nat
  CSIZE : Nat
  CS : Nat → Option Nat
  CSTOPB : Nat
  PARENB : Nat
  PARODD : Nat
  INPCK : Nat
  ISTRIP : Nat
  IXON : Nat
  IXOFF : Nat
  IXANY : Option Nat
  CRTSCTS : Option Nat
  CNEW_RTSCTS : Option Nat
  HUPCL : Nat
  VMIN : Nat
  VTIME : Nat
  CMSPAR : Nat
  BAUDRATE_CONSTANTS : List (Nat × Nat)
  BOTHER : Option Nat
  hasSetSpecialBaudrate : Bool

/-- The baud-rate setup of `_reconfigure_port`: try the symbolic constant
`B<rate>`, then the class `BAUDRATE_CONSTANTS` table, then the platform
`BOTHER` escape (setting the custom flag), else fall back to `B38400` with
the custom flag set.  Returns `(ispeed = ospeed, custom_baud)`. -/
def resolveBaud (p : Platform) (rate : Nat) : Nat × Bool :=
  match p.termiosB rate with
  | some c => (c, false)
  | Option.none =>
    match lookupRate p.BAUDRATE_CONSTANTS rate with
    | some c => (c, false)
    | Option.none =>
      match p.BOTHER with
      | some b => (b, true)
      | Option.none => (p.B38400, true)

/-- The pure attribute-encoding part of `_reconfigure_port`: from the
configuration, the `_hangup_on_close` flag and the attribute list read by
`tcgetattr`, compute the new attribute list and the `custom_baud` flag, or
the `ValueError` (`Err.configuration`) the code raises.  The statement
order follows the source exactly. -/
def encodeAttr (p : Platform) (cfg : Config) (hangupOnClose : Bool) (orig : Attr) :
    Except Err (Attr × Bool) :=
  -- Set up raw mode / no echo / binary
  let cflag := orig.cflag ||| p.CLOCAL ||| p.CREAD
  let lflag := clearBits orig.lflag
    (p.ICANON ||| p.ECHO ||| p.ECHOE ||| p.ECHOK ||| p.ECHONL ||| p.ISIG ||| p.IEXTEN)
  -- Netbsd workaround
  let lflag := clearOpt lflag p.ECHOCTL
  let lflag := clearOpt lflag p.ECHOKE
  let oflag := clearBits orig.oflag (p.OPOST ||| p.ONLCR ||| p.OCRNL)
  let iflag := clearBits orig.iflag (p.INLCR ||| p.IGNCR ||| p.ICRNL ||| p.IGNBRK)
  let iflag := clearOpt iflag p.IUCLC
  let iflag := clearOpt iflag p.PARMRK
  -- Setup baud rate
  let speed := (resolveBaud p cfg.baudrate).1
  let custom_baud := (resolveBaud p cfg.baudrate).2
  -- Setup char len
  let cflag := clearBits cflag p.CSIZE
  match p.CS cfg.bytesize with
  | Option.none => .error .configuration
  | some cs =>
    let cflag := cflag ||| cs
    -- Setup stop bits (the Python `else: raise ValueError` branch is
    -- unreachable: `StopBits` is a closed enumeration there as here)
    let cflag :=
      match cfg.stopbits with
      | StopBits.one => clearBits cflag p.CSTOPB
      | StopBits.one_point_five => cflag ||| p.CSTOPB
      | StopBits.two => cflag ||| p.CSTOPB
    -- Setup parity
    let iflag := clearBits iflag (p.INPCK ||| p.ISTRIP)
    let parityRes : Except Err Nat :=
      match cfg.parity with
      | Parity.none => .ok (clearBits cflag (p.PARENB ||| p.PARODD ||| p.CMSPAR))
      | Parity.even => .ok (clearBits cflag (p.PARODD ||| p.CMSPAR) ||| p.PARENB)
      | Parity.odd => .ok (clearBits cflag p.CMSPAR ||| p.PARENB ||| p.PARODD)
      | Parity.mark =>
        if p.CMSPAR ≠ 0 then .ok (cflag ||| p.PARENB ||| p.CMSPAR ||| p.PARODD)
        else .error .configuration
      | Parity.space =>
        if p.CMSPAR ≠ 0 then .ok (clearBits (cflag ||| p.PARENB ||| p.CMSPAR) p.PARODD)
        else .error .configuration
    match parityRes with
    | .error e => .error e
    | .ok cflag =>
      -- Setup XON/XOFF flow control
      let iflag :=
        match p.IXANY with
        | some ixany =>
          if cfg.xonxoff then iflag ||| p.IXON ||| p.IXOFF
          else clearBits iflag (p.IXON ||| p.IXOFF ||| ixany)
        | Option.none =>
          if cfg.xonxoff then iflag ||| p.IXON ||| p.IXOFF
          else clearBits iflag (p.IXON ||| p.IXOFF)
      -- Setup RTS/CTS flow control (primary name first, then the alternate)
      let cflag :=
        match p.CRTSCTS with
        | some c => if cfg.rtscts then cflag ||| c else clearBits cflag c
        | Option.none =>
          match p.CNEW_RTSCTS with
          | some c => if cfg.rtscts then cflag ||| c else clearBits cflag c
          | Option.none => cflag
      -- Setup Hangup on Close
      let cflag := if hangupOnClose then cflag ||| p.HUPCL else clearBits cflag p.HUPCL
      -- Use nonblocking operations with no buffers.  NOTE: in the source,
      -- `cc` is the very list object stored inside `orig_attr`, so these
      -- in-place assignments also change `orig_attr[6]`.
      let cc := (orig.cc.set p.VMIN 0).set p.VTIME 0
      .ok (⟨iflag, oflag, cflag, lflag, speed, speed, cc⟩, custom_baud)

/-- What `_reconfigure_port` did: the `tcsetattr` call (with the attribute
list written) if one was made, and whether `_set_special_baudrate` was
invoked. -/
structure ReconfigResult where
  tcsetattrCall : Option Attr
  specialBaud : Bool
deriving DecidableEq, Repr

/-- `PosixSerialStream._reconfigure_port`.  Returns early (no OS calls) when
the port is closed.  `flockOk` is the outcome of the exclusive `flock`
attempt; `specialOk` the outcome of the two ioctls inside the subclass
`_set_special_baudrate` (the Linux override turns their `IOError` into a
`ValueError`, the base class raises `NotImplementedError`; both are
`Err.configuration` in the taxonomy).  The comparison deciding the
`tcsetattr` write is against `orig_attr` as it exists *after* the in-place
`cc` mutation (Python list aliasing), hence `{ orig with cc := newAttr.cc }`. -/
def reconfigure_port (p : Platform) (cfg : Config) (st : PosixState)
    (flockOk : Bool) (orig : Attr) (force_update : Bool) (specialOk : Bool) :
    Except Err ReconfigResult :=
  match st.fd with
  | Option.none => .ok ⟨Option.none, false⟩
  | some _ =>
    if cfg.exclusive && !flockOk then .error .ioFailure
    else
      match encodeAttr p cfg st.hangupOnClose orig with
      | .error e => .error e
      | .ok (newAttr, custom_baud) =>
        let origAliased := { orig with cc := newAttr.cc }
        let call : Option Attr :=
          if force_update = true ∨ newAttr ≠ origAliased then some newAttr
          else Option.none
        if custom_baud then
          if p.hasSetSpecialBaudrate then
            if specialOk then .ok ⟨call, true⟩ else .error .configuration
          else .error .configuration
        else .ok ⟨call, false⟩

/-- `PosixSerialStream._close`: do nothing if already closed, otherwise set
`_fd = None` and release the descriptor (the `notify_closing` branch has no
effect on the modelled state). -/
def close_fast (st : PosixState) : PosixState :=
  match st.fd with
  | Option.none => st
  | some _ => { st with fd := Option.none }

/-- `PosixSerialStream.aopen`: raise `Exception("Already opened")` when a
descriptor exists; otherwise `os.open` (outcome `openOk`, new descriptor
`newFd`), then `_reconfigure_port(force_update=True)`, and on any exception
from it `_close()` before re-raising.  The final `PosixState` is returned
alongside the outcome so that state mutation is observable. -/
def aopen (p : Platform) (cfg : Config) (st : PosixState) (openOk : Bool)
    (newFd : Nat) (flockOk : Bool) (orig : Attr) (specialOk : Bool) :
    Except Err Unit × PosixState :=
  match st.fd with
  | some _ => (.error .alreadyOpen, st)
  | Option.none =>
    if openOk then
      let st1 : PosixState := { st with fd := some newFd }
      match reconfigure_port p cfg st1 flockOk orig true specialOk with
      | .ok _ => (.ok (), st1)
      | .error e => (.error e, close_fast st1)
    else (.error .ioFailure, st)

/-- `PosixSerialStream.discard_input`: `tcflush(self.fd, TCIFLUSH)` — the
`fd` property raises when closed. -/
def discard_input (st : PosixState) : Except Err Unit :=
  match fdGet st with
  | .error e => .error e
  | .ok _ => .ok ()

/-- `PosixSerialStream.discard_output`: `tcflush(self.fd, TCOFLUSH)`. -/
def discard_output (st : PosixState) : Except Err Unit :=
  match fdGet st with
  | .error e => .error e
  | .ok _ => .ok ()

/-- `PosixSerialStream.send_break`: `tcsendbreak(self.fd, int(duration / 0.25))`
(the float duration argument plays no role in the claims and is elided). -/
def send_break (st : PosixState) : Except Err Unit :=
  match fdGet st with
  | .error e => .error e
  | .ok _ => .ok ()

/-- `TIOCM_CTS` (fallback value in the source: `0x020`). -/
def BIT_CTS : Nat := 0x020

/-- `TIOCM_RTS` (fallback value in the source: `0x004`). -/
def BIT_RTS : Nat := 0x004

/-- `PosixSerialStream._get_bit`: `ioctl(self.fd, TIOCMGET, ...)` then test
the mask; `modemBits` is the word the ioctl reports. -/
def get_bit (st : PosixState) (modemBits bit : Nat) : Except Err Bool :=
  match fdGet st with
  | .error e => .error e
  | .ok _ => .ok (decide (modemBits &&& bit ≠ 0))

/-- `PosixSerialStream.get_cts`. -/
def get_cts (st : PosixState) (modemBits : Nat) : Except Err Bool :=
  get_bit st modemBits BIT_CTS

/-- `PosixSerialStream.get_rts`. -/
def get_rts (st : PosixState) (modemBits : Nat) : Except Err Bool :=
  get_bit st modemBits BIT_RTS

/-- `PosixSerialStream._set_bit` / `set_rts`: `ioctl(self.fd, TIOCMBIS or
TIOCMBIC, bit)`. -/
def set_rts (st : PosixState) (_value : Bool) : Except Err Unit :=
  match fdGet st with
  | .error e => .error e
  | .ok _ => .ok ()

/-- `PosixSerialStream.get_hangup`: returns `self._hangup_on_close` without
touching the descriptor. -/
def get_hangup (st : PosixState) : Except Err Bool :=
  .ok st.hangupOnClose

/-- `PosixSerialStream.set_hangup`: store the flag, then `_reconfigure_port()`
(which silently returns when the port is closed). -/
def set_hangup (p : Platform) (cfg : Config) (st : PosixState) (value : Bool)
    (flockOk : Bool) (orig : Attr) (specialOk : Bool) :
    Except Err PosixState :=
  let st1 : PosixState := { st with hangupOnClose := value }
  match reconfigure_port p cfg st1 flockOk orig false specialOk with
  | .ok _ => .ok st1
  | .error e => .error e

/-- The Linux baud table of `LinuxSerialStream.BAUDRATE_CONSTANTS`. -/
def linuxBaudTable : List (Nat × Nat) :=
  [(0, 0o000000), (50, 0o000001), (75, 0o000002), (110, 0o000003),
   (134, 0o000004), (150, 0o000005), (200, 0o000006), (300, 0o000007),
   (600, 0o000010), (1200, 0o000011), (1800, 0o000012), (2400, 0o000013),
   (4800, 0o000014), (9600, 0o000015), (19200, 0o000016), (38400, 0o000017),
   (57600, 0o010001), (115200, 0o010002), (230400, 0o010003),
   (460800, 0o010004), (500000, 0o010005), (576000, 0o010006),
   (921600, 0o010007), (1000000, 0o010010), (1152000, 0o010011),
   (1500000, 0o010012), (2000000, 0o010013), (2500000, 0o010014),
   (3000000, 0o010015), (3500000, 0o010016), (4000000, 0o010017)]

/-- `getattr(termios, f"CS{n}")` on Linux: only `CS5`..`CS8` exist. -/
def linuxCS (n : Nat) : Option Nat :=
  if n = 5 then some 0o00
  else if n = 6 then some 0o20
  else if n = 7 then some 0o40
  else if n = 8 then some 0o60
  else Option.none

/-- `LinuxSerialStream` running on CPython's `termios` module on Linux.
The symbolic `B<rate>` constants defined by that module are exactly the
rates of the Linux table, with the same values. -/
def linuxPlatform : Platform where
  CLOCAL := 0o0004000
  CREAD := 0o0000200
  ICANON := 0o0000002
  ECHO := 0o0000010
  ECHOE := 0o0000020
  ECHOK := 0o0000040
  ECHONL := 0o0000100
  ISIG := 0o0000001
  IEXTEN := 0o0100000
  ECHOCTL := some 0o0001000
  ECHOKE := some 0o0004000
  OPOST := 0o0000001
  ONLCR := 0o0000004
  OCRNL := 0o0000010
  INLCR := 0o0000100
  IGNCR := 0o0000200
  ICRNL := 0o0000400
  IGNBRK := 0o0000001
  IUCLC := some 0o0001000
  PARMRK := some 0o0000010
  termiosB := lookupRate linuxBaudTable
  B38400 := 0o000017
  CSIZE := 0o0000060
  CS := linuxCS
  CSTOPB := 0o0000100
  PARENB := 0o0000400
  PARODD := 0o0001000
  INPCK := 0o0000020
  ISTRIP := 0o0000040
  IXON := 0o0002000
  IXOFF := 0o0010000
  IXANY := some 0o0004000
  CRTSCTS := some 0o20000000000
  CNEW_RTSCTS := Option.none
  HUPCL := 0o0002000
  VMIN := 6
  VTIME := 5
  CMSPAR := 0o10000000000
  BAUDRATE_CONSTANTS := linuxBaudTable
  BOTHER := some 0o010000
  hasSetSpecialBaudrate := true

/-- The base `PosixSerialStream` class itself (no subclass) running on the
same Linux `termios` module: `CMSPAR = 0`, empty `BAUDRATE_CONSTANTS`, no
`BOTHER`, `_set_special_baudrate` not overridden. -/
def posixDefaultPlatform : Platform :=
  { linuxPlatform with
    CMSPAR := 0
    BAUDRATE_CONSTANTS := []
    BOTHER := Option.none
    hasSetSpecialBaudrate := false }

/-- The `COMMTIMEOUTS` structure written by `WindowsSerialStream.aopen`. -/
structure CommTimeouts where
  readIntervalTimeout : Nat
  readTotalTimeoutMultiplier : Nat
  readTotalTimeoutConstant : Nat
deriving DecidableEq, Repr

/-- The win32 `MAXDWORD` sentinel (`0xFFFFFFFF`): the value the
interval/multiplier timeouts must hold for the "return as soon as any byte
is buffered" read policy. -/
def MAXDWORD : Nat := 0xFFFFFFFF

/-- Observable OS-configuration events of `WindowsSerialStream.aopen`. -/
inductive WinOpenEvent where
  | setCommTimeouts (t : CommTimeouts)
  | registerWithIocp
deriving DecidableEq, Repr

/-- `WindowsSerialStream.aopen`: when not yet open, it opens the port, sets
`ReadIntervalTimeout = ReadTotalTimeoutMultiplier = ReadTotalTimeoutConstant
= 0` via `SetCommTimeouts`, then registers the handle with the completion
port; when already open it silently does nothing. -/
def win_aopen (alreadyOpen : Bool) : List WinOpenEvent :=
  if alreadyOpen then []
  else [WinOpenEvent.setCommTimeouts ⟨0, 0, 0⟩, WinOpenEvent.registerWithIocp]

/-- `WindowsSerialStream._recv`: `read_size = max_bytes or 4096`; the
reusable buffer is reallocated when its length differs from `read_size`;
`readinto_overlapped` then reads into the whole buffer.  Returns the new
buffer and the bytes read (`osRead` maps the requested size to the data the
overlapped read delivers, i.e. `self._read_buffer[:bytes_read]`). -/
def win_recv (buf : List Nat) (osRead : Nat → List Nat) (maxBytes : Option Nat) :
    List Nat × List Nat :=
  let read_size := pyOr maxBytes 4096
  let buffer := if read_size = buf.length then buf else List.replicate read_size 0
  (buffer, osRead buffer.length)

/-- The spec's send cycle never contains a checkpoint event. -/
theorem specSendCycle_no_checkpoint (data : List Nat) :
    ∀ (oracle : List Nat) (t : Nat), SendEvent.checkpoint ∉ specSendCycle data oracle t := by
  intro oracle
  induction oracle with
  | nil => intro t; simp [specSendCycle]
  | cons s rest ih =>
    intro t
    simp only [specSendCycle]
    split
    · intro hmem
      simp only [List.mem_cons] at hmem
      rcases hmem with h | h | h
      · exact SendEvent.noConfusion h
      · exact SendEvent.noConfusion h
      · exact ih (t + s) h
    · simp

/-- A determined run of the `send_all` loop produces exactly the event
sequence the spec describes. -/
theorem posixSendLoop_eq_spec (st : PosixState) (data : List Nat) :
    ∀ (oracle : List Nat) (t : Nat) (evs : List SendEvent),
      posixSendLoop st data oracle t = .ok (some evs) →
      evs = specSendCycle data oracle t := by
  intro oracle
  induction oracle with
  | nil =>
    intro t evs h
    simp only [posixSendLoop] at h
    split at h
    · cases hfd : st.fd <;> simp [hfd] at h
    · simp only [Except.ok.injEq, Option.some.injEq] at h
      subst h
      simp [specSendCycle]
  | cons s rest ih =>
    intro t evs h
    simp only [posixSendLoop] at h
    split at h
    case isTrue ht =>
      cases hfd : st.fd with
      | none => simp [hfd] at h
      | some fd =>
        simp only [hfd] at h
        cases hrec : posixSendLoop st data rest (t + s) with
        | error e => simp [hrec] at h
        | ok o =>
          cases o with
          | none => simp [hrec] at h
          | some evs' =>
            simp only [hrec, Except.ok.injEq, Option.some.injEq] at h
            subst h
            simp only [specSendCycle, ht, if_true]
            rw [ih (t + s) evs' hrec]
    case isFalse ht =>
      simp only [Except.ok.injEq, Option.some.injEq] at h
      subst h
      simp [specSendCycle, ht]

/-- The only exception the `send_all` loop can raise is
`ClosedResourceError` (from the `fd` property). -/
theorem posixSendLoop_error_closed (st : PosixState) (data : List Nat) :
    ∀ (oracle : List Nat) (t : Nat) (e : Err),
      posixSendLoop st data oracle t = .error e → e = Err.closedResource := by
  intro oracle
  induction oracle with
  | nil =>
    intro t e h
    simp only [posixSendLoop] at h
    split at h
    · cases hfd : st.fd with
      | none =>
        simp only [hfd, Except.error.injEq] at h
        exact h.symm
      | some fd => simp [hfd] at h
    · simp at h
  | cons s rest ih =>
    intro t e h
    simp only [posixSendLoop] at h
    split at h
    · cases hfd : st.fd with
      | none =>
        simp only [hfd, Except.error.injEq] at h
        exact h.symm
      | some fd =>
        simp only [hfd] at h
        cases hrec : posixSendLoop st data rest (t + s) with
        | error e' =>
          simp only [hrec, Except.error.injEq] at h
          exact h ▸ ih (t + s) e' hrec
        | ok o =>
          cases o <;> simp [hrec] at h
    · simp at h

/-- C1: `send_all(data)` acquires the send conflict guard; on empty data it
executes exactly one scheduling checkpoint and calls neither
`_wait_writable` nor `_send`; on non-empty data every determined run is
exactly the cycle `_wait_writable`, `_send` on the suffix of `data` at the
current offset, offset advanced by the amount `_send` returned, repeated
until the offset reaches `len(data)` — so the slices passed to `_send` are
the suffixes given by the cumulative sent counts, and partial writes are
retried, never raised (in particular no checkpoint and no error event
occurs in the loop). -/
theorem send_all_suffix_cycle (st : PosixState) (g : Guards) (data oracle : List Nat)
    (hg : g.sendBusy = false) :
    (data = [] → send_all st g data oracle = .ok (some [SendEvent.checkpoint])) ∧
    (∀ evs, data ≠ [] → send_all st g data oracle = .ok (some evs) →
      evs = specSendCycle data oracle 0 ∧ SendEvent.checkpoint ∉ evs) := by
  constructor
  · intro hdata
    subst hdata
    simp [send_all, hg]
  · intro evs hdata h
    have hne : data.isEmpty = false := by
      cases data with
      | nil => exact absurd rfl hdata
      | cons d ds => rfl
    simp only [send_all, hg, hne, Bool.false_eq_true, if_false] at h
    have hspec := posixSendLoop_eq_spec st data oracle 0 evs h
    exact ⟨hspec, hspec ▸ specSendCycle_no_checkpoint data oracle 0⟩

/-- Witness for C1 at a concrete input: three bytes sent in a partial write
of two followed by a write of one, and the empty-data checkpoint case. -/
theorem send_all_suffix_cycle_witness :
    ([SendEvent.waitWritable, SendEvent.send [1, 2, 3],
      SendEvent.waitWritable, SendEvent.send [3]] =
        specSendCycle [1, 2, 3] [2, 1] 0 ∧
      SendEvent.checkpoint ∉
        [SendEvent.waitWritable, SendEvent.send [1, 2, 3],
         SendEvent.waitWritable, SendEvent.send [3]]) ∧
    send_all ⟨some 3, true⟩ ⟨false, false⟩ [] [2, 1] = .ok (some [SendEvent.checkpoint]) := by
  have h := send_all_suffix_cycle ⟨some 3, true⟩ ⟨false, false⟩ [1, 2, 3] [2, 1] rfl
  have h0 := send_all_suffix_cycle ⟨some 3, true⟩ ⟨false, false⟩ [] [2, 1] rfl
  exact ⟨h.2 _ (by decide) rfl, h0.1 rfl⟩

/-- C9: with no operation in flight, a `send_all` (or
`wait_send_all_might_not_block`) entered while another send-direction
operation holds the guard fails at entry with the conflict error, and a
`receive_some` entered while another receive holds the guard fails the same
way; the guards are per direction: a receive entered while only a send is
in flight is never rejected with the conflict error, and the first
operation in each direction is never rejected either. -/
theorem conflict_guard_per_direction (st : PosixState) (g : Guards)
    (data oracle : List Nat) (osRead : Nat → List Nat) (maxBytes : Option Nat)
    (hs : g.sendBusy = false) (hr : g.recvBusy = false) :
    send_all st { g with sendBusy := true } data oracle = .error .conflict ∧
    wait_send_all_might_not_block st { g with sendBusy := true } = .error .conflict ∧
    receive_some st { g with recvBusy := true } osRead maxBytes = .error .conflict ∧
    (∀ e, send_all st g data oracle = .error e → e ≠ .conflict) ∧
    (∀ e, wait_send_all_might_not_block st g = .error e → e ≠ .conflict) ∧
    (∀ e, receive_some st g osRead maxBytes = .error e → e ≠ .conflict) ∧
    (∀ e, receive_some st { g with sendBusy := true } osRead maxBytes = .error e →
      e ≠ .conflict) ∧
    (∀ e, send_all st { g with recvBusy := true } data oracle = .error e →
      e ≠ .conflict) := by
  have hsend : ∀ e, (if data.isEmpty then
      (.ok (some [SendEvent.checkpoint]) : Except Err (Option (List SendEvent)))
      else posixSendLoop st data oracle 0) = .error e → e ≠ Err.conflict := by
    intro e he
    split at he
    · exact absurd he (by simp)
    · have := posixSendLoop_error_closed st data oracle 0 e he
      subst this
      exact Err.noConfusion
  have hrecv : ∀ e, recv st osRead maxBytes = .error e → e ≠ Err.conflict := by
    intro e he
    cases hfd : st.fd with
    | none =>
      simp only [recv, hfd, Except.error.injEq] at he
      subst he
      exact Err.noConfusion
    | some fd => simp [recv, hfd] at he
  refine ⟨by simp [send_all], by simp [wait_send_all_might_not_block],
    by simp [receive_some], ?_, ?_, ?_, ?_, ?_⟩
  · intro e he
    simp only [send_all, hs, Bool.false_eq_true, if_false] at he
    exact hsend e he
  · intro e he
    simp only [wait_send_all_might_not_block, hs, Bool.false_eq_true, if_false] at he
    cases hfd : st.fd with
    | none =>
      simp only [hfd, Except.error.injEq] at he
      subst he
      exact Err.noConfusion
    | some fd => simp [hfd] at he
  · intro e he
    simp only [receive_some, hr, Bool.false_eq_true, if_false] at he
    exact hrecv e he
  · intro e he
    simp only [receive_some, hr, Bool.false_eq_true, if_false] at he
    exact hrecv e he
  · intro e he
    simp only [send_all, hs, Bool.false_eq_true, if_false] at he
    exact hsend e he

/-- Witness for C9 at a concrete input: with a send in flight a second
send fails with the conflict error, while a first receive on the same
stream is not rejected. -/
theorem conflict_guard_per_direction_witness :
    send_all ⟨some 3, true⟩ ⟨true, false⟩ [1] [] = .error .conflict ∧
    (∀ e, receive_some ⟨some 3, true⟩ ⟨true, false⟩ (fun _ => [7]) (some 1) = .error e →
      e ≠ .conflict) := by
  have h := conflict_guard_per_direction ⟨some 3, true⟩ ⟨false, false⟩ [1] []
    (fun _ => [7]) (some 1) rfl rfl
  exact ⟨h.1, h.2.2.2.2.2.2.1⟩

/-- C2 counterexample: on a closed stream (`_fd is None`), `get_hangup`
succeeds (it only reads `self._hangup_on_close`), `set_hangup` succeeds (it
stores the flag and `_reconfigure_port` returns silently on a closed port),
and `send_all` of empty data succeeds with a bare checkpoint — so it is not
the case that every public operation other than `aopen`/`aclose` fails with
the closed-resource error while the stream is closed. -/
theorem closed_hangup_ops_not_rejected :
    get_hangup { fd := Option.none, hangupOnClose := true } = .ok true ∧
    set_hangup linuxPlatform
        ⟨"/dev/ttyS0", false, 9600, 8, Parity.none, StopBits.one, false, false⟩
        { fd := Option.none, hangupOnClose := true } false false
        ⟨0, 0, 0, 0, 0, 0, []⟩ true =
      .ok { fd := Option.none, hangupOnClose := false } ∧
    send_all { fd := Option.none, hangupOnClose := true } ⟨false, false⟩ [] [] =
      .ok (some [SendEvent.checkpoint]) :=
  ⟨rfl, rfl, rfl⟩

/-- C2 (amended): while the stream is closed, every public operation that
reaches the `fd` property — `discard_input`, `discard_output`,
`send_break`, `receive_some`, `send_all` of non-empty data,
`wait_send_all_might_not_block`, `get_cts`, `get_rts`, `set_rts` — fails
with the closed-resource error; but `get_hangup` returns the stored flag,
`set_hangup` stores the new flag and silently skips reconfiguration, and
`send_all` of empty data checkpoints and succeeds. -/
theorem closed_state_operations (p : Platform) (cfg : Config) (st : PosixState)
    (g : Guards) (osRead : Nat → List Nat) (modemBits : Nat) (data oracle : List Nat)
    (maxBytes : Option Nat) (flockOk : Bool) (orig : Attr) (specialOk v : Bool)
    (hfd : st.fd = Option.none) (hs : g.sendBusy = false) (hr : g.recvBusy = false)
    (hdata : data ≠ []) :
    discard_input st = .error .closedResource ∧
    discard_output st = .error .closedResource ∧
    send_break st = .error .closedResource ∧
    receive_some st g osRead maxBytes = .error .closedResource ∧
    send_all st g data oracle = .error .closedResource ∧
    wait_send_all_might_not_block st g = .error .closedResource ∧
    get_cts st modemBits = .error .closedResource ∧
    get_rts st modemBits = .error .closedResource ∧
    set_rts st v = .error .closedResource ∧
    get_hangup st = .ok st.hangupOnClose ∧
    set_hangup p cfg st v flockOk orig specialOk = .ok { st with hangupOnClose := v } ∧
    send_all st g [] oracle = .ok (some [SendEvent.checkpoint]) := by
  obtain ⟨fd, hup⟩ := st
  simp only at hfd
  subst hfd
  refine ⟨rfl, rfl, rfl, ?_, ?_, ?_, rfl, rfl, rfl, rfl, rfl, ?_⟩
  · simp [receive_some, hr, recv]
  · cases data with
    | nil => exact absurd rfl hdata
    | cons d ds =>
      cases oracle <;> simp [send_all, hs, posixSendLoop]
  · simp [wait_send_all_might_not_block, hs]
  · simp [send_all, hs]

/-- Witness for C2's amended theorem at a concrete closed stream. -/
theorem closed_state_operations_witness :
    discard_input { fd := Option.none, hangupOnClose := true } = .error .closedResource ∧
    send_all { fd := Option.none, hangupOnClose := true } ⟨false, false⟩ [9] [] =
      .error .closedResource := by
  have h := closed_state_operations linuxPlatform
    ⟨"/dev/ttyS0", false, 9600, 8, Parity.none, StopBits.one, false, false⟩
    ⟨Option.none, true⟩ ⟨false, false⟩ (fun _ => []) 0 [9] [] Option.none false
    ⟨0, 0, 0, 0, 0, 0, []⟩ true true rfl rfl rfl (by decide)
  exact ⟨h.1, h.2.2.2.2.1⟩

/-- C3: if `_reconfigure_port` raises during `aopen` on a closed stream,
`aopen` re-raises that exception after `_close()`, leaving `_fd = None` —
the freshly acquired descriptor is released and the stream is `Closed`. -/
theorem aopen_failure_closes (p : Platform) (cfg : Config) (st : PosixState)
    (newFd : Nat) (flockOk : Bool) (orig : Attr) (specialOk : Bool) (e : Err)
    (hclosed : st.fd = Option.none)
    (hfail : reconfigure_port p cfg { st with fd := some newFd } flockOk orig true
      specialOk = .error e) :
    aopen p cfg st true newFd flockOk orig specialOk =
      (.error e, { st with fd := Option.none }) := by
  obtain ⟨fd, hup⟩ := st
  simp only at hclosed
  subst hclosed
  simp [aopen, hfail, close_fast]

/-- Witness for C3: opening with invalid byte size 9 fails with the
configuration error and leaves the descriptor closed. -/
theorem aopen_failure_closes_witness :
    aopen linuxPlatform ⟨"/dev/ttyS0", false, 9600, 9, Parity.none, StopBits.one, false, false⟩
        ⟨Option.none, true⟩ true 3 true ⟨0, 0, 0, 0, 0, 0, [0, 0, 0, 0, 0, 0, 0]⟩ true =
      (.error .configuration, { fd := Option.none, hangupOnClose := true }) :=
  aopen_failure_closes linuxPlatform _ ⟨Option.none, true⟩ 3 true _ true .configuration
    rfl rfl

/-- C4: `aopen` on an already-open stream fails with the already-open error
(`Exception("Already opened")`, the spec's `AlreadyOpenError`) and returns
the state entirely unchanged — no field is mutated by the failed call. -/
theorem aopen_already_open (p : Platform) (cfg : Config) (st : PosixState)
    (openOk : Bool) (newFd : Nat) (flockOk : Bool) (orig : Attr) (specialOk : Bool)
    (n : Nat) (h : st.fd = some n) :
    aopen p cfg st openOk newFd flockOk orig specialOk = (.error .alreadyOpen, st) := by
  obtain ⟨fd, hup⟩ := st
  simp only at h
  subst h
  rfl

/-- Witness for C4 at a concrete open stream. -/
theorem aopen_already_open_witness :
    aopen linuxPlatform ⟨"/dev/ttyS0", false, 9600, 8, Parity.none, StopBits.one, false, false⟩
        ⟨some 7, false⟩ true 3 true ⟨0, 0, 0, 0, 0, 0, []⟩ true =
      (.error .alreadyOpen, { fd := some 7, hangupOnClose := false }) :=
  aopen_already_open linuxPlatform _ ⟨some 7, false⟩ true 3 true _ true 7 rfl

/-- The custom-baud flag returned by the attribute codec is exactly the
flag computed by the baud-rate resolution. -/
theorem encodeAttr_custom (p : Platform) (cfg : Config) (hangupOnClose : Bool)
    (orig : Attr) (a : Attr) (c : Bool)
    (h : encodeAttr p cfg hangupOnClose orig = .ok (a, c)) :
    c = (resolveBaud p cfg.baudrate).2 := by
  simp only [encodeAttr] at h
  split at h
  · simp at h
  · split at h
    · simp at h
    · simp only [Except.ok.injEq, Prod.mk.injEq] at h
      exact h.2.symm

/-- When the codec raises, `_reconfigure_port` on an open, lockable port
re-raises the same exception. -/
theorem reconfigure_encode_error (p : Platform) (cfg : Config) (st : PosixState)
    (flockOk : Bool) (orig : Attr) (force_update specialOk : Bool) (n : Nat) (e : Err)
    (hfd : st.fd = some n) (hlock : cfg.exclusive = false)
    (henc : encodeAttr p cfg st.hangupOnClose orig = .error e) :
    reconfigure_port p cfg st flockOk orig force_update specialOk = .error e := by
  obtain ⟨fd, hup⟩ := st
  simp only at hfd henc
  subst hfd
  simp [reconfigure_port, hlock, henc]

/-- C5: baud-rate resolution tries, first match winning, (1) the symbolic
`B<rate>` constant, (2) the platform `BAUDRATE_CONSTANTS` table, (3) the
platform `BOTHER` escape with the custom flag set, (4) the `B38400`
fallback with the custom flag set; on a successful reconfiguration the
secondary custom-rate call is performed exactly when the custom flag is
set, and with the custom flag set on a platform with no custom-rate
mechanism the reconfiguration raises the configuration error. -/
theorem baud_resolution_order (p : Platform) (cfg : Config) (st : PosixState)
    (flockOk : Bool) (orig : Attr) (force_update specialOk : Bool) :
    (∀ c, p.termiosB cfg.baudrate = some c →
      resolveBaud p cfg.baudrate = (c, false)) ∧
    (∀ c, p.termiosB cfg.baudrate = Option.none →
      lookupRate p.BAUDRATE_CONSTANTS cfg.baudrate = some c →
      resolveBaud p cfg.baudrate = (c, false)) ∧
    (∀ b, p.termiosB cfg.baudrate = Option.none →
      lookupRate p.BAUDRATE_CONSTANTS cfg.baudrate = Option.none →
      p.BOTHER = some b → resolveBaud p cfg.baudrate = (b, true)) ∧
    (p.termiosB cfg.baudrate = Option.none →
      lookupRate p.BAUDRATE_CONSTANTS cfg.baudrate = Option.none →
      p.BOTHER = Option.none → resolveBaud p cfg.baudrate = (p.B38400, true)) ∧
    (∀ n r, st.fd = some n →
      reconfigure_port p cfg st flockOk orig force_update specialOk = .ok r →
      r.specialBaud = (resolveBaud p cfg.baudrate).2) ∧
    (∀ n a c, st.fd = some n → cfg.exclusive = false →
      encodeAttr p cfg st.hangupOnClose orig = .ok (a, c) →
      (resolveBaud p cfg.baudrate).2 = true → p.hasSetSpecialBaudrate = false →
      reconfigure_port p cfg st flockOk orig force_update specialOk =
        .error .configuration) := by
  refine ⟨?_, ?_, ?_, ?_, ?_, ?_⟩
  · intro c h
    simp [resolveBaud, h]
  · intro c h1 h2
    simp [resolveBaud, h1, h2]
  · intro b h1 h2 h3
    simp [resolveBaud, h1, h2, h3]
  · intro h1 h2 h3
    simp [resolveBaud, h1, h2, h3]
  · intro n r hfd hok
    obtain ⟨fd, hup⟩ := st
    simp only at hfd
    subst hfd
    simp only [reconfigure_port] at hok
    split at hok
    · simp at hok
    · cases henc : encodeAttr p cfg hup orig with
      | error e => simp [henc] at hok
      | ok ac =>
        obtain ⟨a, c⟩ := ac
        have hc := encodeAttr_custom p cfg hup orig a c henc
        simp only [henc] at hok
        split at hok
        case isTrue hcustom =>
          split at hok
          case isTrue hspec =>
            split at hok
            case isTrue hso =>
              simp only [Except.ok.injEq] at hok
              rw [← hok, ← hc]
              exact hcustom.symm
            case isFalse hso => simp at hok
          case isFalse hspec => simp at hok
        case isFalse hcustom =>
          simp only [Except.ok.injEq] at hok
          rw [← hok, ← hc]
          simp only [Bool.not_eq_true] at hcustom
          exact hcustom.symm
  · intro n a c hfd hexcl henc hcust hspec
    obtain ⟨fd, hup⟩ := st
    simp only at hfd henc
    subst hfd
    have hc := encodeAttr_custom p cfg hup orig a c henc
    simp [reconfigure_port, hexcl, henc, hc.trans hcust, hspec]

/-- Witness for C5: all four resolution branches at rate 9600 on Linux-like
platforms, and the configuration error for an unsupported rate on the base
POSIX class (no custom-rate mechanism). -/
theorem baud_resolution_order_witness :
    resolveBaud linuxPlatform 9600 = (0o15, false) ∧
    resolveBaud { linuxPlatform with termiosB := fun _ => Option.none } 9600 =
      (0o15, false) ∧
    resolveBaud { linuxPlatform with
      termiosB := (fun _ => Option.none)
      BAUDRATE_CONSTANTS := [] } 9600 = (0o10000, true) ∧
    resolveBaud { linuxPlatform with
      termiosB := (fun _ => Option.none)
      BAUDRATE_CONSTANTS := []
      BOTHER := Option.none } 9600 = (0o17, true) ∧
    reconfigure_port posixDefaultPlatform
      ⟨"/dev/ttyS0", false, 12345, 8, Parity.none, StopBits.one, false, false⟩
      ⟨some 3, true⟩ true ⟨0, 0, 0, 0, 0, 0, [0, 0, 0, 0, 0, 0, 0]⟩ true true =
      .error .configuration := by
  refine ⟨?_, ?_, ?_, ?_, ?_⟩
  · exact (baud_resolution_order linuxPlatform
      ⟨"", false, 9600, 8, Parity.none, StopBits.one, false, false⟩
      ⟨some 3, true⟩ true ⟨0, 0, 0, 0, 0, 0, []⟩ true true).1 0o15 rfl
  · exact (baud_resolution_order { linuxPlatform with termiosB := fun _ => Option.none }
      ⟨"", false, 9600, 8, Parity.none, StopBits.one, false, false⟩
      ⟨some 3, true⟩ true ⟨0, 0, 0, 0, 0, 0, []⟩ true true).2.1 0o15 rfl rfl
  · exact (baud_resolution_order { linuxPlatform with
      termiosB := (fun _ => Option.none)
      BAUDRATE_CONSTANTS := [] }
      ⟨"", false, 9600, 8, Parity.none, StopBits.one, false, false⟩
      ⟨some 3, true⟩ true ⟨0, 0, 0, 0, 0, 0, []⟩ true true).2.2.1 0o10000 rfl rfl rfl
  · exact (baud_resolution_order { linuxPlatform with
      termiosB := (fun _ => Option.none)
      BAUDRATE_CONSTANTS := []
      BOTHER := Option.none }
      ⟨"", false, 9600, 8, Parity.none, StopBits.one, false, false⟩
      ⟨some 3, true⟩ true ⟨0, 0, 0, 0, 0, 0, []⟩ true true).2.2.2.1 rfl rfl rfl
  · exact (baud_resolution_order posixDefaultPlatform
      ⟨"/dev/ttyS0", false, 12345, 8, Parity.none, StopBits.one, false, false⟩
      ⟨some 3, true⟩ true ⟨0, 0, 0, 0, 0, 0, [0, 0, 0, 0, 0, 0, 0]⟩ true true).2.2.2.2.2
      3 ⟨0, 0, 0xCB0, 0, 15, 15, [0, 0, 0, 0, 0, 0, 0]⟩ true rfl rfl rfl rfl rfl

/-- C6: a byte size whose `CS<n>` constant does not exist (on Linux, any
size outside 5..8, in particular 9) makes reconfiguration fail with the
configuration error, and MARK (or SPACE) parity on a platform whose
`CMSPAR` capability constant is zero fails with the configuration error
instead of silently encoding parity NONE. -/
theorem bytesize_parity_config_errors (p : Platform) (cfg : Config) (st : PosixState)
    (flockOk : Bool) (orig : Attr) (force_update specialOk : Bool) (n : Nat)
    (hfd : st.fd = some n) (hlock : cfg.exclusive = false) :
    (p.CS cfg.bytesize = Option.none →
      reconfigure_port p cfg st flockOk orig force_update specialOk =
        .error .configuration) ∧
    ((cfg.bytesize ≠ 5 ∧ cfg.bytesize ≠ 6 ∧ cfg.bytesize ≠ 7 ∧ cfg.bytesize ≠ 8) →
      linuxCS cfg.bytesize = Option.none) ∧
    (p.CMSPAR = 0 → (cfg.parity = Parity.mark ∨ cfg.parity = Parity.space) →
      reconfigure_port p cfg st flockOk orig force_update specialOk =
        .error .configuration) := by
  refine ⟨?_, ?_, ?_⟩
  · intro hCS
    apply reconfigure_encode_error p cfg st flockOk orig force_update specialOk n
      .configuration hfd hlock
    simp [encodeAttr, hCS]
  · intro h
    obtain ⟨h5, h6, h7, h8⟩ := h
    simp [linuxCS, h5, h6, h7, h8]
  · intro hcm hpar
    apply reconfigure_encode_error p cfg st flockOk orig force_update specialOk n
      .configuration hfd hlock
    cases hCS : p.CS cfg.bytesize with
    | none => simp [encodeAttr, hCS]
    | some cs => rcases hpar with h | h <;> simp [encodeAttr, hCS, h, hcm]

/-- Witness for C6: byte size 9 with MARK parity on the base POSIX class
(whose `CMSPAR` is 0) makes reconfiguration fail. -/
theorem bytesize_parity_config_errors_witness :
    reconfigure_port posixDefaultPlatform
        ⟨"/dev/ttyS0", false, 9600, 9, Parity.mark, StopBits.one, false, false⟩
        ⟨some 3, true⟩ true ⟨0, 0, 0, 0, 0, 0, []⟩ true true = .error .configuration ∧
    linuxCS 9 = Option.none := by
  have h := bytesize_parity_config_errors posixDefaultPlatform
    ⟨"/dev/ttyS0", false, 9600, 9, Parity.mark, StopBits.one, false, false⟩
    ⟨some 3, true⟩ true ⟨0, 0, 0, 0, 0, 0, []⟩ true true 3 rfl rfl
  exact ⟨h.1 rfl, h.2.1 (by decide)⟩

/-- C7 counterexample: a previously configured port whose flag fields are
already at their encoded values but whose `VMIN`/`VTIME` control characters
are 1.  The newly encoded attribute list differs from the list read from
the OS at the start (`cc` changed from `[...,1,1]` to `[...,0,0]`), yet
`tcsetattr` is not called with `force_update` unset: the source mutates the
`cc` list in place inside `orig_attr`, so `new_attr != orig_attr` can never
observe a cc-only difference. -/
theorem tcsetattr_skipped_despite_changed_attrs :
    encodeAttr linuxPlatform
        ⟨"/dev/ttyS0", false, 9600, 8, Parity.none, StopBits.one, false, false⟩ true
        ⟨0, 0, 0xCB0, 0, 13, 13, [0, 0, 0, 0, 0, 1, 1]⟩ =
      .ok (⟨0, 0, 0xCB0, 0, 13, 13, [0, 0, 0, 0, 0, 0, 0]⟩, false) ∧
    (⟨0, 0, 0xCB0, 0, 13, 13, [0, 0, 0, 0, 0, 0, 0]⟩ : Attr) ≠
      ⟨0, 0, 0xCB0, 0, 13, 13, [0, 0, 0, 0, 0, 1, 1]⟩ ∧
    reconfigure_port linuxPlatform
        ⟨"/dev/ttyS0", false, 9600, 8, Parity.none, StopBits.one, false, false⟩
        ⟨some 3, true⟩ false ⟨0, 0, 0xCB0, 0, 13, 13, [0, 0, 0, 0, 0, 1, 1]⟩ false true =
      .ok ⟨Option.none, false⟩ :=
  ⟨rfl, by decide, rfl⟩

/-- C7 (amended): on a successful reconfiguration of an open port,
`tcsetattr` is called (with the newly encoded attribute list) if and only
if `force_update` is set or the new list differs from the read list in a
field other than the control-character array; because the source mutates
the `cc` array in place inside the list read from the OS, a difference only
in `cc` never triggers the write. -/
theorem tcsetattr_write_iff (p : Platform) (cfg : Config) (st : PosixState)
    (flockOk : Bool) (orig : Attr) (force_update specialOk : Bool) (n : Nat)
    (newAttr : Attr) (custom : Bool) (r : ReconfigResult)
    (hfd : st.fd = some n) (hlock : cfg.exclusive = false)
    (henc : encodeAttr p cfg st.hangupOnClose orig = .ok (newAttr, custom))
    (hr : reconfigure_port p cfg st flockOk orig force_update specialOk = .ok r) :
    (r.tcsetattrCall = some newAttr ↔
      (force_update = true ∨ newAttr ≠ { orig with cc := newAttr.cc })) ∧
    (r.tcsetattrCall = Option.none ↔
      (force_update = false ∧ newAttr = { orig with cc := newAttr.cc })) := by
  obtain ⟨fd, hup⟩ := st
  simp only at hfd henc
  subst hfd
  simp only [reconfigure_port, hlock, Bool.false_and, Bool.false_eq_true, if_false,
    henc] at hr
  have key : ∀ b : Bool,
      ((⟨if force_update = true ∨ newAttr ≠ { orig with cc := newAttr.cc }
          then some newAttr else Option.none, b⟩ : ReconfigResult).tcsetattrCall =
            some newAttr ↔
        (force_update = true ∨ newAttr ≠ { orig with cc := newAttr.cc })) ∧
      ((⟨if force_update = true ∨ newAttr ≠ { orig with cc := newAttr.cc }
          then some newAttr else Option.none, b⟩ : ReconfigResult).tcsetattrCall =
            Option.none ↔
        (force_update = false ∧ newAttr = { orig with cc := newAttr.cc })) := by
    intro b
    by_cases hcond : force_update = true ∨ newAttr ≠ { orig with cc := newAttr.cc }
    · refine ⟨by simp [if_pos hcond, hcond], ?_⟩
      rw [if_pos hcond]
      simp only [reduceCtorEq, false_iff, not_and]
      intro hf heq
      rcases hcond with hc | hc
      · rw [hf] at hc
        exact Bool.noConfusion hc
      · exact hc heq
    · push_neg at hcond
      obtain ⟨hf, heq⟩ := hcond
      have hf' : force_update = false := by
        cases force_update with
        | false => rfl
        | true => exact absurd rfl hf
      have hnot : ¬(force_update = true ∨ newAttr ≠ { orig with cc := newAttr.cc }) := by
        rintro (hc | hc)
        · exact hf hc
        · exact hc heq
      refine ⟨?_, ?_⟩
      · rw [if_neg hnot]
        simp only [reduceCtorEq, false_iff]
        exact hnot
      · rw [if_neg hnot]
        exact iff_of_true rfl ⟨hf', heq⟩
  split at hr
  case isTrue hcustom =>
    split at hr
    case isTrue hspec =>
      split at hr
      case isTrue hso =>
        simp only [Except.ok.injEq] at hr
        exact hr ▸ key true
      case isFalse hso => exact Except.noConfusion hr
    case isFalse hspec => exact Except.noConfusion hr
  case isFalse hcustom =>
    simp only [Except.ok.injEq] at hr
    exact hr ▸ key false

/-- Witness for C7's amended theorem: the counterexample input, where the
second iff gives a skipped write. -/
theorem tcsetattr_write_iff_witness :
    (⟨Option.none, false⟩ : ReconfigResult).tcsetattrCall = Option.none :=
  (tcsetattr_write_iff linuxPlatform
      ⟨"/dev/ttyS0", false, 9600, 8, Parity.none, StopBits.one, false, false⟩
      ⟨some 3, true⟩ false ⟨0, 0, 0xCB0, 0, 13, 13, [0, 0, 0, 0, 0, 1, 1]⟩ false true 3
      ⟨0, 0, 0xCB0, 0, 13, 13, [0, 0, 0, 0, 0, 0, 0]⟩ false ⟨Option.none, false⟩
      rfl rfl rfl rfl).2.mpr ⟨rfl, by decide⟩

/-- C8: the Windows backend's `aopen` configures the OS read timeouts with
`ReadIntervalTimeout = ReadTotalTimeoutMultiplier = ReadTotalTimeoutConstant
= 0` before registering the handle with the completion port — not the
`MAXDWORD` sentinel values (and large finite constant) of the
"wait effectively forever, return immediately if any byte is buffered"
policy the documentation describes. -/
theorem win_aopen_timeouts_zero :
    win_aopen false =
      [WinOpenEvent.setCommTimeouts ⟨0, 0, 0⟩, WinOpenEvent.registerWithIocp] ∧
    (0 : Nat) ≠ MAXDWORD := by
  decide

/-- C10: `receive_some`/`_recv` with `max_bytes` equal to `0` or `None`
issues an OS read sized to the default 4096 bytes on both the POSIX and the
Windows backend — the default applies to every falsy `max_bytes` value, so
`receive_some(0)` may return up to 4096 bytes rather than an empty result. -/
theorem recv_default_read_size (st : PosixState) (g : Guards)
    (osRead : Nat → List Nat) (buf : List Nat) (n : Nat)
    (hfd : st.fd = some n) (hg : g.recvBusy = false) :
    recv st osRead (some 0) = .ok (osRead 4096) ∧
    recv st osRead Option.none = .ok (osRead 4096) ∧
    receive_some st g osRead (some 0) = .ok (osRead 4096) ∧
    receive_some st g osRead Option.none = .ok (osRead 4096) ∧
    (win_recv buf osRead (some 0)).2 = osRead 4096 ∧
    (win_recv buf osRead Option.none).2 = osRead 4096 := by
  obtain ⟨fd, hup⟩ := st
  simp only at hfd
  subst hfd
  have hwin : ∀ mb, pyOr mb 4096 = 4096 → (win_recv buf osRead mb).2 = osRead 4096 := by
    intro mb hmb
    simp only [win_recv, hmb]
    split
    case isTrue h => rw [← h]
    case isFalse h => rw [List.length_replicate]
  refine ⟨rfl, rfl, ?_, ?_, hwin _ rfl, hwin _ rfl⟩
  · simp [receive_some, hg, recv, pyOr]
  · simp [receive_some, hg, recv, pyOr]

/-- Witness for C10 at a concrete open stream: the oracle records the
requested read size, which is 4096 for both falsy `max_bytes` values. -/
theorem recv_default_read_size_witness :
    recv ⟨some 3, true⟩ (fun k => [k]) (some 0) = .ok [4096] ∧
    (win_recv [] (fun k => [k]) Option.none).2 = [4096] := by
  have h := recv_default_read_size ⟨some 3, true⟩ ⟨false, false⟩ (fun k => [k]) [] 3
    rfl rfl
  exact ⟨h.1, h.2.2.2.2.2⟩

end TrioSerial
